import Mathlib

/-!
Verification of the Mellanox SDK-sniffer toggle protocol from
`config/plugins/mlnx.py` (sonic-utilities).

File contents are modelled as lists of characters (`Content`).  Reading a
file line by line follows Python's semantics: each line keeps its trailing
newline character (`pyLines`).  The remote supervisor fragment and the local
staging file `/tmp/tmp.conf` form the `SnifferState`; external commands
(docker cp, touch, rm, systemctl restart) are modelled by their effect on
that state, and each observable step of an invocation is recorded as an
event so that ordering properties can be stated.
-/

namespace MlnxSniffer

/-- File content: a sequence of characters. -/
abbrev Content := List Char

/-- Python `file.readlines()` / line iteration: split after every newline,
keeping the newline character at the end of each line.  A final line with no
terminating newline is kept as-is; the empty file has no lines. -/
def pyLines : Content → List Content
  | [] => []
  | c :: rest =>
    if c = '\n' then ['\n'] :: pyLines rest
    else
      match pyLines rest with
      | [] => [[c]]
      | l :: ls => (c :: l) :: ls

/-- Boolean test that `pat` occurs at the very front of `s`. -/
def isLeading : Content → Content → Bool
  | [], _ => true
  | _ :: _, [] => false
  | p :: ps, c :: cs => if p = c then isLeading ps cs else false

/-- Python `s.find(pat) >= 0`: `pat` occurs somewhere inside `s` as a
contiguous substring. -/
def containsSub (pat : Content) : Content → Bool
  | [] => pat.isEmpty
  | c :: rest => isLeading pat (c :: rest) || containsSub pat rest

/- Constants from the source module. -/

/-- `ENV_VARIABLE_SX_SNIFFER = 'SX_SNIFFER_ENABLE'` -/
def ENV_VARIABLE_SX_SNIFFER : Content := "SX_SNIFFER_ENABLE".data

/-- `ENV_VARIABLE_SX_SNIFFER_TARGET = 'SX_SNIFFER_TARGET'` -/
def ENV_VARIABLE_SX_SNIFFER_TARGET : Content := "SX_SNIFFER_TARGET".data

/-- `SDK_SNIFFER_TARGET_PATH = '/var/log/sdk_dbg/'` -/
def SDK_SNIFFER_TARGET_PATH : Content := "/var/log/sdk_dbg/".data

/-- `SDK_SNIFFER_FILENAME_PREFIX = 'sx_sdk_sniffer_'` -/
def SDK_SNIFFER_FILENAME_PREFIX : Content := "sx_sdk_sniffer_".data

/-- `SDK_SNIFFER_FILENAME_EXT = '.pcap'` -/
def SDK_SNIFFER_FILENAME_EXT : Content := ".pcap".data

/-- `sniffer_filename_generate(path, filename_prefix, filename_ext)`:
`path + filename_prefix + time_stamp + filename_ext`.  The timestamp comes
from `time.strftime` and is passed explicitly here since wall-clock time is
an external input. -/
def sniffer_filename_generate (path : Content) ( filename_prefix : Content)
    ( filename_ext : Content) (time_stamp : Content) : Content :=
  path ++ filename_prefix ++ time_stamp ++ filename_ext

/-- `env_variable_write(env_variable_string)`: open `/tmp/tmp.conf` in append
mode; if the file is empty, first write the header `[program:syncd]\n`; then
write the given string. -/
def env_variable_write (conf : Content) (env_variable_string : Content) : Content :=
  if conf = [] then "[program:syncd]\n".data ++ env_variable_string
  else conf ++ env_variable_string

/-- `env_variable_read(env_variable_name)`: iterate over the lines of
`/tmp/tmp.conf`; break at the first line containing the name as a substring
and return that line; if no line matches (or the file is empty) the
`for`/`else` clause returns `''`. -/
def env_variable_read (conf : Content) (env_variable_name : Content) : Content :=
  ((pyLines conf).find? (fun l => containsSub env_variable_name l)).getD []

/-- `env_variable_delete(delete_line)`: read all lines, seek to the start,
write back every line that is not equal to `delete_line`, truncate. -/
def env_variable_delete (conf : Content) (delete_line : Content) : Content :=
  ((pyLines conf).filter (fun l => decide (l ≠ delete_line))).flatten

/-- The two configuration artifacts touched by a toggle invocation:
the remote fragment `syncd:/etc/supervisor/conf.d/mlnx_sniffer.conf`
(`docker exec touch` guarantees it exists, so its content suffices) and the
local staging file `/tmp/tmp.conf` (`none` = file absent). -/
structure SnifferState where
  remote : Content
  tmp : Option Content
deriving DecidableEq

/-- Observable events of one toggle invocation, in the order they are
emitted by the code. -/
inductive Ev
  | fetch
  | locate
  | decision
  | mutate
  | publish
  | cleanup
  | restart
  | echoAlready
  | echoSuccess
  | logRestartError
deriving DecidableEq

/-- The protocol steps of the spec (fetch/locate/decision/mutate/publish/
cleanup/restart), as opposed to console or log messages. -/
def Ev.isStep : Ev → Bool
  | .fetch => true
  | .locate => true
  | .decision => true
  | .mutate => true
  | .publish => true
  | .cleanup => true
  | .restart => true
  | _ => false

/-- `sniffer_env_variable_set(enable, env_variable_name, env_variable_string)`:
`conf_file_receive()` (touch remote + copy it onto `/tmp/tmp.conf`), then
`env_variable_read`; if a matching line exists: enable is a no-op
(`ignore = True`), disable deletes that line; if none exists: enable writes
the new string, disable is a no-op.  Unless `ignore`, `config_file_send()`
copies the staging file back to the remote fragment.  Finally
`rm -rf /tmp/tmp.conf` runs on every path, and `ignore` is returned. -/
def sniffer_env_variable_set (enable : Bool) (env_variable_name : Content)
    (env_variable_string : Content) (st : SnifferState) :
    List Ev × Bool × SnifferState :=
  let tmp0 := st.remote
  let env_variable_exist_string := env_variable_read tmp0 env_variable_name
  let dec : List Ev × Bool × Content :=
    if env_variable_exist_string ≠ [] then
      if enable then ([Ev.echoAlready], true, tmp0)
      else ([Ev.mutate], false, env_variable_delete tmp0 env_variable_exist_string)
    else
      if enable then ([Ev.mutate], false, env_variable_write tmp0 env_variable_string)
      else ([Ev.echoAlready], true, tmp0)
  let ignore := dec.2.1
  let pubEvs : List Ev := if ignore then [] else [Ev.publish]
  let remote1 := if ignore then st.remote else dec.2.2
  ([Ev.fetch, Ev.locate, Ev.decision] ++ dec.1 ++ pubEvs ++ [Ev.cleanup],
   ignore,
   { remote := remote1, tmp := none })

/-- `restart_swss()`: run `systemctl restart swss.service`; on failure log
the error with its cause and return 1, otherwise return 0.  Whether the
external command succeeds is an input of the model. -/
def restart_swss (restart_ok : Bool) : List Ev × Nat :=
  if restart_ok then ([Ev.restart], 0)
  else ([Ev.restart, Ev.logRestartError], 1)

/-- Result reported by a whole enable/disable invocation. -/
inductive ToggleOutcome
  | Applied
  | AlreadyInDesiredState
  | RestartFailure
deriving DecidableEq

/-- The dict built in `sdk_sniffer_enable`:
`{ENV_VARIABLE_SX_SNIFFER: "1" + ",", ENV_VARIABLE_SX_SNIFFER_TARGET: filename}`
(insertion order). -/
def sdk_sniffer_env_variable_dict (sdk_sniffer_filename : Content) :
    List (Content × Content) :=
  [(ENV_VARIABLE_SX_SNIFFER, "1".data ++ ",".data),
   (ENV_VARIABLE_SX_SNIFFER_TARGET, sdk_sniffer_filename)]

/-- Body of `sdk_sniffer_enable` after the filename is built, generalised
over the key/value items: start from `"environment="`, append
`name + "=" + value` for each item in order, append `"\n"`, then call
`sniffer_env_variable_set(enable=True, ...)`; if not ignored, call
`restart_swss()` and echo the success message only when it returns 0. -/
def sdk_sniffer_enable_with (items : List (Content × Content))
    (restart_ok : Bool) (st : SnifferState) :
    List Ev × ToggleOutcome × SnifferState :=
  let sdk_sniffer_env_variable_string :=
    (items.foldl (fun acc kv => acc ++ kv.1 ++ "=".data ++ kv.2)
      "environment=".data) ++ "\n".data
  let r := sniffer_env_variable_set true ENV_VARIABLE_SX_SNIFFER
    sdk_sniffer_env_variable_string st
  if r.2.1 then (r.1, ToggleOutcome.AlreadyInDesiredState, r.2.2)
  else
    let rr := restart_swss restart_ok
    if rr.2 ≠ 0 then (r.1 ++ rr.1, ToggleOutcome.RestartFailure, r.2.2)
    else (r.1 ++ rr.1 ++ [Ev.echoSuccess], ToggleOutcome.Applied, r.2.2)

/-- `sdk_sniffer_enable()`: build the timestamped filename, build the env
dict, and run the enable flow. -/
def sdk_sniffer_enable (time_stamp : Content) (restart_ok : Bool)
    (st : SnifferState) : List Ev × ToggleOutcome × SnifferState :=
  let sdk_sniffer_filename :=
    sniffer_filename_generate SDK_SNIFFER_TARGET_PATH
      SDK_SNIFFER_FILENAME_PREFIX SDK_SNIFFER_FILENAME_EXT time_stamp
  sdk_sniffer_enable_with (sdk_sniffer_env_variable_dict sdk_sniffer_filename)
    restart_ok st

/-- `sdk_sniffer_disable()`: `sniffer_env_variable_set(enable=False, ...)`
with the default empty string; if not ignored, `restart_swss()` and echo the
success message only when it returns 0. -/
def sdk_sniffer_disable (restart_ok : Bool) (st : SnifferState) :
    List Ev × ToggleOutcome × SnifferState :=
  let r := sniffer_env_variable_set false ENV_VARIABLE_SX_SNIFFER [] st
  if r.2.1 then (r.1, ToggleOutcome.AlreadyInDesiredState, r.2.2)
  else
    let rr := restart_swss restart_ok
    if rr.2 ≠ 0 then (r.1 ++ rr.1, ToggleOutcome.RestartFailure, r.2.2)
    else (r.1 ++ rr.1 ++ [Ev.echoSuccess], ToggleOutcome.Applied, r.2.2)

/-- The env string built by `sdk_sniffer_enable`'s loop for the actual dict,
as a named definition (the loop itself lives in `sdk_sniffer_enable_with`). -/
def sdk_sniffer_env_variable_string (sdk_sniffer_filename : Content) : Content :=
  ((sdk_sniffer_env_variable_dict sdk_sniffer_filename).foldl
    (fun acc kv => acc ++ kv.1 ++ "=".data ++ kv.2) "environment=".data) ++ "\n".data

/-- Modelled from the spec: the directive line as the specification words it
— `environment=` followed by the mapping's `key=value` pairs concatenated in
insertion order with `,` between consecutive pairs.  Used to compare the
spec's wording against the source's actual string construction. -/
def env_directive_spec (items : List (Content × Content)) : Content :=
  "environment=".data ++
    (List.intersperse ",".data
      (items.map (fun kv => kv.1 ++ "=".data ++ kv.2))).flatten ++ "\n".data

/-! ### Line-splitting lemmas -/

theorem pyLines_cons_nl (rest : Content) :
    pyLines ('\n' :: rest) = ['\n'] :: pyLines rest := by
  simp [pyLines]

theorem pyLines_cons_of_nil {c : Char} {rest : Content} (h : ¬ c = '\n')
    (hr : pyLines rest = []) : pyLines (c :: rest) = [[c]] := by
  simp only [pyLines, if_neg h, hr]

theorem pyLines_cons_of_cons {c : Char} {rest : Content} {l : Content}
    {ls : List Content} (h : ¬ c = '\n') (hr : pyLines rest = l :: ls) :
    pyLines (c :: rest) = (c :: l) :: ls := by
  simp only [pyLines, if_neg h, hr]

theorem pyLines_eq_nil_iff (s : Content) : pyLines s = [] ↔ s = [] := by
  constructor
  · intro h
    cases s with
    | nil => rfl
    | cons c rest =>
      by_cases hc : c = '\n'
      · subst hc; rw [pyLines_cons_nl] at h; exact absurd h (by simp)
      · cases hr : pyLines rest with
        | nil => rw [pyLines_cons_of_nil hc hr] at h; exact absurd h (by simp)
        | cons l ls => rw [pyLines_cons_of_cons hc hr] at h; exact absurd h (by simp)
  · intro h; subst h; rfl

theorem flatten_pyLines (s : Content) : (pyLines s).flatten = s := by
  induction s with
  | nil => rfl
  | cons c rest ih =>
    by_cases hc : c = '\n'
    · subst hc; rw [pyLines_cons_nl]; simp [ih]
    · cases hr : pyLines rest with
      | nil =>
        have : rest = [] := (pyLines_eq_nil_iff rest).mp hr
        subst this
        rw [pyLines_cons_of_nil hc hr]; rfl
      | cons l ls =>
        rw [hr] at ih
        rw [pyLines_cons_of_cons hc hr]
        simpa using ih

theorem pyLines_append_nl {a : Content} (b : Content)
    (h : ∀ x ∈ a, x ≠ '\n') :
    pyLines (a ++ '\n' :: b) = (a ++ ['\n']) :: pyLines b := by
  induction a with
  | nil => simpa using pyLines_cons_nl b
  | cons c a ih =>
    have hc : ¬ c = '\n' := h c (List.mem_cons_self c a)
    have ih' := ih (fun x hx => h x (List.mem_cons_of_mem c hx))
    rw [List.cons_append, pyLines_cons_of_cons hc ih']
    simp

theorem pyLines_no_nl {a : Content} (h : ∀ x ∈ a, x ≠ '\n') (ha : a ≠ []) :
    pyLines a = [a] := by
  induction a with
  | nil => exact absurd rfl ha
  | cons c a ih =>
    have hc : ¬ c = '\n' := h c (List.mem_cons_self c a)
    cases a with
    | nil => exact pyLines_cons_of_nil hc rfl
    | cons d a' =>
      have ih' := ih (fun x hx => h x (List.mem_cons_of_mem c hx)) (by simp)
      exact pyLines_cons_of_cons hc ih'

/-- A list of contents that is a valid line decomposition: every line has a
newline-free body, every line but possibly the last is newline-terminated,
and every line is nonempty. -/
inductive LineList : List Content → Prop
  | nil : LineList []
  | final (b : Content) (hb : ∀ x ∈ b, x ≠ '\n') (hne : b ≠ []) : LineList [b]
  | cons (b : Content) (ls : List Content) (hb : ∀ x ∈ b, x ≠ '\n')
      (h : LineList ls) : LineList ((b ++ ['\n']) :: ls)

theorem lineList_pyLines (s : Content) : LineList (pyLines s) := by
  induction s with
  | nil => exact LineList.nil
  | cons c rest ih =>
    by_cases hc : c = '\n'
    · subst hc; rw [pyLines_cons_nl]
      have := LineList.cons [] (pyLines rest) (by simp) ih
      simpa using this
    · cases hr : pyLines rest with
      | nil =>
        rw [pyLines_cons_of_nil hc hr]
        exact LineList.final [c] (by simpa using hc) (by simp)
      | cons l ls =>
        rw [pyLines_cons_of_cons hc hr]
        rw [hr] at ih
        cases ih
        · rename_i hb hne
          exact LineList.final (c :: l)
            (by
              intro x hx
              rcases List.mem_cons.mp hx with h1 | h2
              · subst h1; exact hc
              · exact hb x h2)
            (by simp)
        · rename_i b hb h
          have := LineList.cons (c :: b) ls
            (by
              intro x hx
              rcases List.mem_cons.mp hx with h1 | h2
              · subst h1; exact hc
              · exact hb x h2) h
          simpa using this

theorem pyLines_flatten_of_lineList {ls : List Content} (h : LineList ls) :
    pyLines ls.flatten = ls := by
  induction h with
  | nil => rfl
  | final b hb hne => simpa using pyLines_no_nl hb hne
  | cons b ls hb h ih =>
    have : ((b ++ ['\n']) :: ls).flatten = b ++ '\n' :: ls.flatten := by
      simp
    rw [this, pyLines_append_nl _ hb, ih]

theorem lineList_filter {ls : List Content} (p : Content → Bool)
    (h : LineList ls) : LineList (ls.filter p) := by
  induction h with
  | nil => exact LineList.nil
  | final b hb hne =>
    by_cases hp : p b
    · simpa [List.filter, hp] using LineList.final b hb hne
    · simp only [List.filter_cons, List.filter_nil, Bool.not_eq_true] at *
      simp [hp]
      exact LineList.nil
  | cons b ls hb hls ih =>
    by_cases hp : p (b ++ ['\n'])
    · simpa [List.filter_cons, hp] using LineList.cons b (ls.filter p) hb ih
    · simp only [List.filter_cons, Bool.not_eq_true] at *
      simpa [hp] using ih

theorem lineList_ne_nil {ls : List Content} (h : LineList ls) :
    ∀ l ∈ ls, l ≠ [] := by
  induction h with
  | nil => intro l hl; exact absurd hl (by simp)
  | final b hb hne =>
    intro l hl; rw [List.mem_singleton] at hl; subst hl; exact hne
  | cons b ls hb hls ih =>
    intro l hl
    rcases List.mem_cons.mp hl with h1 | h2
    · subst h1; simp
    · exact ih l h2

theorem mem_pyLines_ne_nil {s l : Content} (hl : l ∈ pyLines s) : l ≠ [] :=
  lineList_ne_nil (lineList_pyLines s) l hl

theorem pyLines_delete (conf delete_line : Content) :
    pyLines (env_variable_delete conf delete_line) =
      (pyLines conf).filter (fun l => decide (l ≠ delete_line)) := by
  rw [env_variable_delete]
  exact pyLines_flatten_of_lineList
    (lineList_filter _ (lineList_pyLines conf))

/-! ### Substring-search lemmas -/

theorem isLeading_self_append (pat r : Content) :
    isLeading pat (pat ++ r) = true := by
  induction pat with
  | nil => rfl
  | cons p ps ih => simp [isLeading, ih]

theorem containsSub_of_isLeading {pat s : Content}
    (h : isLeading pat s = true) : containsSub pat s = true := by
  cases s with
  | nil =>
    cases pat with
    | nil => rfl
    | cons p ps => simp [isLeading] at h
  | cons c cs => simp [containsSub, h]

theorem containsSub_append_of_right {pat b : Content} (a : Content)
    (h : containsSub pat b = true) : containsSub pat (a ++ b) = true := by
  induction a with
  | nil => simpa using h
  | cons x a ih =>
    simp only [List.cons_append, containsSub, Bool.or_eq_true]
    exact Or.inr ih

theorem containsSub_self_append (pat r : Content) :
    containsSub pat (pat ++ r) = true :=
  containsSub_of_isLeading (isLeading_self_append pat r)

theorem isLeading_head_pyLines {pat : Content}
    (hp : ∀ x ∈ pat, x ≠ '\n') (hne : pat ≠ []) :
    ∀ {s : Content}, isLeading pat s = true →
      ∃ l ls, pyLines s = l :: ls ∧ isLeading pat l = true := by
  induction pat with
  | nil => exact absurd rfl hne
  | cons p ps ih =>
    intro s h
    cases s with
    | nil => simp [isLeading] at h
    | cons c cs =>
      rw [isLeading] at h
      by_cases hpc : p = c
      · rw [if_pos hpc] at h
        have hcnl : ¬ c = '\n' := hpc ▸ hp p (List.mem_cons_self p ps)
        by_cases hps : ps = []
        · subst hps
          cases hr : pyLines cs with
          | nil =>
            refine ⟨[c], [], pyLines_cons_of_nil hcnl hr, ?_⟩
            simp [isLeading, hpc]
          | cons l0 ls0 =>
            refine ⟨c :: l0, ls0, pyLines_cons_of_cons hcnl hr, ?_⟩
            simp [isLeading, hpc]
        · have hp' : ∀ x ∈ ps, x ≠ '\n' :=
            fun x hx => hp x (List.mem_cons_of_mem p hx)
          obtain ⟨l0, ls0, hr, hl0⟩ := ih hp' hps h
          refine ⟨c :: l0, ls0, pyLines_cons_of_cons hcnl hr, ?_⟩
          simp [isLeading, hpc, hl0]
      · rw [if_neg hpc] at h; exact absurd h (by simp)

theorem exists_line_containsSub {pat : Content}
    (hp : ∀ x ∈ pat, x ≠ '\n') (hne : pat ≠ []) :
    ∀ {s : Content}, containsSub pat s = true →
      ∃ l ∈ pyLines s, containsSub pat l = true := by
  intro s
  induction s with
  | nil =>
    intro h
    rw [containsSub, List.isEmpty_iff] at h
    exact absurd h hne
  | cons c cs ih =>
    intro h
    rw [containsSub, Bool.or_eq_true] at h
    rcases h with hL | hR
    · obtain ⟨l, ls, hr, hl⟩ := isLeading_head_pyLines hp hne hL
      exact ⟨l, by rw [hr]; exact List.mem_cons_self l ls,
        containsSub_of_isLeading hl⟩
    · obtain ⟨l, hl, hc⟩ := ih hR
      by_cases hcnl : c = '\n'
      · subst hcnl
        exact ⟨l, by rw [pyLines_cons_nl]; exact List.mem_cons_of_mem _ hl, hc⟩
      · cases hr : pyLines cs with
        | nil => rw [hr] at hl; exact absurd hl (by simp)
        | cons l0 ls0 =>
          rw [hr] at hl
          rcases List.mem_cons.mp hl with h1 | h2
          · subst h1
            have hmem : (c :: l) ∈ pyLines (c :: cs) := by
              rw [pyLines_cons_of_cons hcnl hr]
              exact List.mem_cons_self _ _
            have hcon : containsSub pat (c :: l) = true := by
              rw [containsSub, Bool.or_eq_true]
              exact Or.inr hc
            exact ⟨c :: l, hmem, hcon⟩
          · have hmem : l ∈ pyLines (c :: cs) := by
              rw [pyLines_cons_of_cons hcnl hr]
              exact List.mem_cons_of_mem _ h2
            exact ⟨l, hmem, hc⟩

/-! ### Lemmas about `env_variable_read` -/

theorem read_eq_nil_iff (conf name : Content) :
    env_variable_read conf name = [] ↔
      ∀ l ∈ pyLines conf, containsSub name l = false := by
  constructor
  · intro h l hl
    cases hf : (pyLines conf).find? (fun l => containsSub name l) with
    | none =>
      have := List.find?_eq_none.mp hf l hl
      simpa using this
    | some x =>
      simp only [env_variable_read, hf, Option.getD_some] at h
      exact absurd h (mem_pyLines_ne_nil (List.mem_of_find?_eq_some hf))
  · intro h
    have hf : (pyLines conf).find? (fun l => containsSub name l) = none := by
      rw [List.find?_eq_none]
      intro x hx
      simp [h x hx]
    simp only [env_variable_read, hf, Option.getD_none]

theorem read_mem_contains {conf name : Content}
    (h : env_variable_read conf name ≠ []) :
    env_variable_read conf name ∈ pyLines conf ∧
      containsSub name (env_variable_read conf name) = true := by
  rw [env_variable_read] at *
  cases hf : (pyLines conf).find? (fun l => containsSub name l) with
  | none => rw [hf] at h; exact absurd rfl h
  | some l =>
    simp only [hf, Option.getD_some]
    refine ⟨List.mem_of_find?_eq_some hf, ?_⟩
    have := List.find?_some hf
    simpa using this

theorem find?_eq_head?_filter {α : Type} (p : α → Bool) (l : List α) :
    l.find? p = (l.filter p).head? := by
  induction l with
  | nil => rfl
  | cons a t ih =>
    by_cases h : p a
    · rw [List.find?_cons_of_pos _ h, List.filter_cons_of_pos h, List.head?_cons]
    · rw [List.find?_cons_of_neg _ h, List.filter_cons_of_neg h, ih]

theorem two_mem_le_length {α : Type} {a b : α} {xs : List α}
    (ha : a ∈ xs) (hb : b ∈ xs) (hab : a ≠ b) : 2 ≤ xs.length := by
  cases xs with
  | nil => exact absurd ha (by simp)
  | cons x t =>
    cases t with
    | nil =>
      rw [List.mem_singleton] at ha hb
      exact absurd (ha.trans hb.symm) hab
    | cons y t' => simp only [List.length_cons]; omega

theorem foldl_append_env (items : List (Content × Content)) :
    ∀ init : Content,
      items.foldl (fun acc kv => acc ++ kv.1 ++ "=".data ++ kv.2) init =
        init ++ (items.map (fun kv => kv.1 ++ "=".data ++ kv.2)).flatten := by
  induction items with
  | nil => intro init; simp
  | cons kv t ih =>
    intro init
    rw [List.foldl_cons, ih, List.map_cons, List.flatten_cons]
    simp [List.append_assoc]

/-! ### Branch characterisations of the orchestrator -/

theorem set_enable_found {name s : Content} {st : SnifferState}
    (h : env_variable_read st.remote name ≠ []) :
    sniffer_env_variable_set true name s st =
      ([Ev.fetch, Ev.locate, Ev.decision, Ev.echoAlready, Ev.cleanup], true,
       ⟨st.remote, none⟩) := by
  simp [sniffer_env_variable_set, h]

theorem set_enable_absent {name s : Content} {st : SnifferState}
    (h : env_variable_read st.remote name = []) :
    sniffer_env_variable_set true name s st =
      ([Ev.fetch, Ev.locate, Ev.decision, Ev.mutate, Ev.publish, Ev.cleanup],
       false, ⟨env_variable_write st.remote s, none⟩) := by
  simp [sniffer_env_variable_set, h]

theorem set_disable_found {name s : Content} {st : SnifferState}
    (h : env_variable_read st.remote name ≠ []) :
    sniffer_env_variable_set false name s st =
      ([Ev.fetch, Ev.locate, Ev.decision, Ev.mutate, Ev.publish, Ev.cleanup],
       false,
       ⟨env_variable_delete st.remote (env_variable_read st.remote name),
        none⟩) := by
  simp [sniffer_env_variable_set, h]

theorem set_disable_absent {name s : Content} {st : SnifferState}
    (h : env_variable_read st.remote name = []) :
    sniffer_env_variable_set false name s st =
      ([Ev.fetch, Ev.locate, Ev.decision, Ev.echoAlready, Ev.cleanup], true,
       ⟨st.remote, none⟩) := by
  simp [sniffer_env_variable_set, h]

theorem enable_found {st : SnifferState}
    (h : env_variable_read st.remote ENV_VARIABLE_SX_SNIFFER ≠ [])
    (time_stamp : Content) (restart_ok : Bool) :
    sdk_sniffer_enable time_stamp restart_ok st =
      ([Ev.fetch, Ev.locate, Ev.decision, Ev.echoAlready, Ev.cleanup],
       ToggleOutcome.AlreadyInDesiredState, ⟨st.remote, none⟩) := by
  simp [sdk_sniffer_enable, sdk_sniffer_enable_with, set_enable_found h]

theorem enable_absent_ok {st : SnifferState}
    (h : env_variable_read st.remote ENV_VARIABLE_SX_SNIFFER = [])
    (time_stamp : Content) :
    sdk_sniffer_enable time_stamp true st =
      ([Ev.fetch, Ev.locate, Ev.decision, Ev.mutate, Ev.publish, Ev.cleanup,
        Ev.restart, Ev.echoSuccess],
       ToggleOutcome.Applied,
       ⟨env_variable_write st.remote
          (sdk_sniffer_env_variable_string
            (sniffer_filename_generate SDK_SNIFFER_TARGET_PATH
              SDK_SNIFFER_FILENAME_PREFIX SDK_SNIFFER_FILENAME_EXT time_stamp)),
        none⟩) := by
  simp [sdk_sniffer_enable, sdk_sniffer_enable_with, set_enable_absent h,
    restart_swss, sdk_sniffer_env_variable_string]

theorem enable_absent_fail {st : SnifferState}
    (h : env_variable_read st.remote ENV_VARIABLE_SX_SNIFFER = [])
    (time_stamp : Content) :
    sdk_sniffer_enable time_stamp false st =
      ([Ev.fetch, Ev.locate, Ev.decision, Ev.mutate, Ev.publish, Ev.cleanup,
        Ev.restart, Ev.logRestartError],
       ToggleOutcome.RestartFailure,
       ⟨env_variable_write st.remote
          (sdk_sniffer_env_variable_string
            (sniffer_filename_generate SDK_SNIFFER_TARGET_PATH
              SDK_SNIFFER_FILENAME_PREFIX SDK_SNIFFER_FILENAME_EXT time_stamp)),
        none⟩) := by
  simp [sdk_sniffer_enable, sdk_sniffer_enable_with, set_enable_absent h,
    restart_swss, sdk_sniffer_env_variable_string]

theorem disable_found_ok {st : SnifferState}
    (h : env_variable_read st.remote ENV_VARIABLE_SX_SNIFFER ≠ []) :
    sdk_sniffer_disable true st =
      ([Ev.fetch, Ev.locate, Ev.decision, Ev.mutate, Ev.publish, Ev.cleanup,
        Ev.restart, Ev.echoSuccess],
       ToggleOutcome.Applied,
       ⟨env_variable_delete st.remote
          (env_variable_read st.remote ENV_VARIABLE_SX_SNIFFER), none⟩) := by
  simp [sdk_sniffer_disable, set_disable_found h, restart_swss]

theorem disable_found_fail {st : SnifferState}
    (h : env_variable_read st.remote ENV_VARIABLE_SX_SNIFFER ≠ []) :
    sdk_sniffer_disable false st =
      ([Ev.fetch, Ev.locate, Ev.decision, Ev.mutate, Ev.publish, Ev.cleanup,
        Ev.restart, Ev.logRestartError],
       ToggleOutcome.RestartFailure,
       ⟨env_variable_delete st.remote
          (env_variable_read st.remote ENV_VARIABLE_SX_SNIFFER), none⟩) := by
  simp [sdk_sniffer_disable, set_disable_found h, restart_swss]

theorem disable_absent {st : SnifferState}
    (h : env_variable_read st.remote ENV_VARIABLE_SX_SNIFFER = [])
    (restart_ok : Bool) :
    sdk_sniffer_disable restart_ok st =
      ([Ev.fetch, Ev.locate, Ev.decision, Ev.echoAlready, Ev.cleanup],
       ToggleOutcome.AlreadyInDesiredState, ⟨st.remote, none⟩) := by
  simp [sdk_sniffer_disable, set_disable_absent h]

/-! ### Claim theorems -/

/-- C2: for every toggle invocation (enable or disable, any initial state,
any restart result), the local staging artifact `/tmp/tmp.conf` does not
exist after the call returns — `rm -rf` runs on every exit path, whatever
the outcome. -/
theorem C2_staging_deleted_on_every_path :
    ∀ (time_stamp : Content) (restart_ok : Bool) (st : SnifferState),
      (sdk_sniffer_enable time_stamp restart_ok st).2.2.tmp = none ∧
      (sdk_sniffer_disable restart_ok st).2.2.tmp = none := by
  intro time_stamp restart_ok st
  constructor
  · by_cases h : env_variable_read st.remote ENV_VARIABLE_SX_SNIFFER = []
    · cases restart_ok
      · rw [enable_absent_fail h]
      · rw [enable_absent_ok h]
    · rw [enable_found h]
  · by_cases h : env_variable_read st.remote ENV_VARIABLE_SX_SNIFFER = []
    · rw [disable_absent h]
    · cases restart_ok
      · rw [disable_found_fail h]
      · rw [disable_found_ok h]

/-- C3 counterexample: in a concrete enable-from-empty invocation the steps
occur as fetch, locate, decision, mutate, publish, cleanup, restart — the
trace's last step is the restart, not the cleanup, so the claim that cleanup
is always the last step (in particular after restart) is false: the code
removes `/tmp/tmp.conf` inside `sniffer_env_variable_set`, before
`sdk_sniffer_enable` calls `restart_swss`. -/
theorem C3_counterexample :
    ((sdk_sniffer_enable "20240101000000".data true
        ⟨[], none⟩).1.filter Ev.isStep) =
      [Ev.fetch, Ev.locate, Ev.decision, Ev.mutate, Ev.publish, Ev.cleanup,
       Ev.restart] ∧
    ((sdk_sniffer_enable "20240101000000".data true
        ⟨[], none⟩).1.filter Ev.isStep).getLast? ≠ some Ev.cleanup := by
  have h := @enable_absent_ok ⟨[], none⟩ rfl "20240101000000".data
  rw [h]
  exact ⟨rfl, by decide⟩

/-- C3 (amended): in every toggle invocation the steps occur in the strict
order fetch, locate, decision, then — only when a change is applied —
mutate, publish; the staging-artifact cleanup follows (it is the last step
of the fragment-update routine and runs unconditionally), and the restart
step, when attempted, runs after cleanup as the final step.  Cleanup
therefore precedes restart rather than following it. -/
theorem C3_amended_step_order :
    ∀ (time_stamp : Content) (restart_ok : Bool) (st : SnifferState),
      ((sdk_sniffer_enable time_stamp restart_ok st).1.filter Ev.isStep =
          [Ev.fetch, Ev.locate, Ev.decision, Ev.cleanup] ∨
        (sdk_sniffer_enable time_stamp restart_ok st).1.filter Ev.isStep =
          [Ev.fetch, Ev.locate, Ev.decision, Ev.mutate, Ev.publish,
           Ev.cleanup, Ev.restart]) ∧
      ((sdk_sniffer_disable restart_ok st).1.filter Ev.isStep =
          [Ev.fetch, Ev.locate, Ev.decision, Ev.cleanup] ∨
        (sdk_sniffer_disable restart_ok st).1.filter Ev.isStep =
          [Ev.fetch, Ev.locate, Ev.decision, Ev.mutate, Ev.publish,
           Ev.cleanup, Ev.restart]) := by
  intro time_stamp restart_ok st
  constructor
  · by_cases h : env_variable_read st.remote ENV_VARIABLE_SX_SNIFFER = []
    · right
      cases restart_ok
      · rw [enable_absent_fail h]; rfl
      · rw [enable_absent_ok h]; rfl
    · left
      rw [enable_found h]; rfl
  · by_cases h : env_variable_read st.remote ENV_VARIABLE_SX_SNIFFER = []
    · left
      rw [disable_absent h]; rfl
    · right
      cases restart_ok
      · rw [disable_found_fail h]; rfl
      · rw [disable_found_ok h]; rfl

/-- C7: when the located presence already matches the requested state
(enable with the directive present, disable with it absent) the invocation
performs no mutation, no publish and no restart, leaves the remote fragment
unchanged, and reports `AlreadyInDesiredState`. -/
theorem C7_noop_when_already_in_state :
    (∀ (time_stamp : Content) (restart_ok : Bool) (st : SnifferState),
      env_variable_read st.remote ENV_VARIABLE_SX_SNIFFER ≠ [] →
        (sdk_sniffer_enable time_stamp restart_ok st).2.1 =
            ToggleOutcome.AlreadyInDesiredState ∧
          (sdk_sniffer_enable time_stamp restart_ok st).2.2.remote =
            st.remote ∧
          Ev.mutate ∉ (sdk_sniffer_enable time_stamp restart_ok st).1 ∧
          Ev.publish ∉ (sdk_sniffer_enable time_stamp restart_ok st).1 ∧
          Ev.restart ∉ (sdk_sniffer_enable time_stamp restart_ok st).1) ∧
    (∀ (restart_ok : Bool) (st : SnifferState),
      env_variable_read st.remote ENV_VARIABLE_SX_SNIFFER = [] →
        (sdk_sniffer_disable restart_ok st).2.1 =
            ToggleOutcome.AlreadyInDesiredState ∧
          (sdk_sniffer_disable restart_ok st).2.2.remote = st.remote ∧
          Ev.mutate ∉ (sdk_sniffer_disable restart_ok st).1 ∧
          Ev.publish ∉ (sdk_sniffer_disable restart_ok st).1 ∧
          Ev.restart ∉ (sdk_sniffer_disable restart_ok st).1) := by
  constructor
  · intro time_stamp restart_ok st h
    rw [enable_found h time_stamp restart_ok]
    refine ⟨rfl, rfl, ?_, ?_, ?_⟩ <;> simp
  · intro restart_ok st h
    rw [disable_absent h restart_ok]
    refine ⟨rfl, rfl, ?_, ?_, ?_⟩ <;> simp

/-- Witness for C7 at concrete states: a fragment already containing the
directive line is untouched by enable, and the empty fragment is untouched
by disable. -/
theorem C7_witness :
    (sdk_sniffer_enable "20240101000000".data true
        ⟨"[program:syncd]\nenvironment=SX_SNIFFER_ENABLE=1,x\n".data,
         none⟩).2.1 = ToggleOutcome.AlreadyInDesiredState ∧
    (sdk_sniffer_disable true ⟨[], none⟩).2.1 =
      ToggleOutcome.AlreadyInDesiredState :=
  ⟨(C7_noop_when_already_in_state.1 "20240101000000".data true
      ⟨"[program:syncd]\nenvironment=SX_SNIFFER_ENABLE=1,x\n".data, none⟩
      (by decide)).1,
   (C7_noop_when_already_in_state.2 true ⟨[], none⟩ (by decide)).1⟩

/-- C6: `env_variable_delete` writes back exactly the lines that are not
character-for-character equal to the given line, in their original order;
in particular, disabling on a fragment `[header, X, directive, Y]` yields
`[header, X, Y]` with the unrelated lines untouched. -/
theorem C6_remove_exact_lines :
    ∀ (conf delete_line : Content),
      pyLines (env_variable_delete conf delete_line) =
        (pyLines conf).filter (fun l => decide (l ≠ delete_line)) ∧
      (sdk_sniffer_disable true
          ⟨"[program:syncd]\nX=x\nenvironment=SX_SNIFFER_ENABLE=1,f\nY=y\n".data,
           none⟩).2.2.remote =
        "[program:syncd]\nX=x\nY=y\n".data := by
  intro conf delete_line
  exact ⟨pyLines_delete conf delete_line, by decide⟩

/-- C9: `env_variable_read` scans the staging content's lines top to bottom
and returns the first line containing the name as a substring (the head of
the filtered line list); if no line contains it — in particular on the empty
file — it returns the empty-string sentinel.  It is a pure function of the
content, so it never mutates the file. -/
theorem C9_locate_first_matching_line :
    ∀ (conf name : Content),
      env_variable_read conf name =
        (((pyLines conf).filter (fun l => containsSub name l)).head?).getD [] ∧
      ((∀ l ∈ pyLines conf, containsSub name l = false) →
        env_variable_read conf name = []) ∧
      env_variable_read [] name = [] := by
  intro conf name
  refine ⟨?_, ?_, rfl⟩
  · rw [env_variable_read, find?_eq_head?_filter]
  · exact (read_eq_nil_iff conf name).mpr

/-- Witness for C9: on a fragment whose lines do not mention the directive
name, the locate step returns the sentinel. -/
theorem C9_witness :
    env_variable_read "[program:syncd]\nX=x\n".data ENV_VARIABLE_SX_SNIFFER
      = [] :=
  (C9_locate_first_matching_line "[program:syncd]\nX=x\n".data
      ENV_VARIABLE_SX_SNIFFER).2.1 (by decide)

/-- C10: a single `env_variable_delete` removes every line equal to the
given one (none remains), deleting twice equals deleting once, and when no
line equals the given one the content is returned exactly unchanged. -/
theorem C10_remove_all_occurrences_idempotent :
    ∀ (conf delete_line : Content),
      (∀ l ∈ pyLines (env_variable_delete conf delete_line),
        l ≠ delete_line) ∧
      env_variable_delete (env_variable_delete conf delete_line) delete_line =
        env_variable_delete conf delete_line ∧
      ((∀ l ∈ pyLines conf, l ≠ delete_line) →
        env_variable_delete conf delete_line = conf) := by
  intro conf delete_line
  refine ⟨?_, ?_, ?_⟩
  · intro l hl
    rw [pyLines_delete] at hl
    have := (List.mem_filter.mp hl).2
    simpa using this
  · rw [env_variable_delete, pyLines_delete, List.filter_filter]
    simp only [Bool.and_self]
    rw [env_variable_delete]
  · intro h
    rw [env_variable_delete]
    have hf : (pyLines conf).filter (fun l => decide (l ≠ delete_line)) =
        pyLines conf := by
      rw [List.filter_eq_self]
      intro a ha
      simpa using h a ha
    rw [hf]
    exact flatten_pyLines conf

/-- Witness for C10: deleting a line absent from the content leaves the
content exactly unchanged. -/
theorem C10_witness :
    env_variable_delete "[program:syncd]\nX=x\n".data "Y=y\n".data =
      "[program:syncd]\nX=x\n".data :=
  (C10_remove_all_occurrences_idempotent "[program:syncd]\nX=x\n".data
      "Y=y\n".data).2.2 (by decide)

/-- Enabling on an empty fragment produces exactly the header line followed
by the single environment directive line built from the hard-coded dict. -/
theorem enable_from_empty_remote (time_stamp : Content) (restart_ok : Bool) :
    (sdk_sniffer_enable time_stamp restart_ok ⟨[], none⟩).2.2.remote =
      "[program:syncd]\nenvironment=SX_SNIFFER_ENABLE=1,SX_SNIFFER_TARGET=/var/log/sdk_dbg/sx_sdk_sniffer_".data
        ++ time_stamp ++ ".pcap\n".data := by
  have hrw : (sdk_sniffer_enable time_stamp restart_ok ⟨[], none⟩).2.2.remote =
      env_variable_write []
        (sdk_sniffer_env_variable_string
          (sniffer_filename_generate SDK_SNIFFER_TARGET_PATH
            SDK_SNIFFER_FILENAME_PREFIX SDK_SNIFFER_FILENAME_EXT
            time_stamp)) := by
    cases restart_ok
    · rw [@enable_absent_fail ⟨[], none⟩ rfl time_stamp]
    · rw [@enable_absent_ok ⟨[], none⟩ rfl time_stamp]
  rw [hrw]
  simp only [env_variable_write, sdk_sniffer_env_variable_string,
    sdk_sniffer_env_variable_dict, sniffer_filename_generate,
    ENV_VARIABLE_SX_SNIFFER, ENV_VARIABLE_SX_SNIFFER_TARGET,
    SDK_SNIFFER_TARGET_PATH, SDK_SNIFFER_FILENAME_PREFIX,
    SDK_SNIFFER_FILENAME_EXT, List.foldl_cons, List.foldl_nil,
    List.append_assoc, if_true]
  rfl

/-- With a newline-free timestamp the enabled-from-empty fragment splits
into exactly the header line and the directive line. -/
theorem enable_from_empty_lines (time_stamp : Content) (restart_ok : Bool)
    (hts : ∀ c ∈ time_stamp, c ≠ '\n') :
    pyLines (sdk_sniffer_enable time_stamp restart_ok ⟨[], none⟩).2.2.remote =
      ["[program:syncd]\n".data,
       "environment=SX_SNIFFER_ENABLE=1,SX_SNIFFER_TARGET=/var/log/sdk_dbg/sx_sdk_sniffer_".data
         ++ time_stamp ++ ".pcap\n".data] := by
  rw [enable_from_empty_remote time_stamp restart_ok]
  have h1 :
      ("[program:syncd]\nenvironment=SX_SNIFFER_ENABLE=1,SX_SNIFFER_TARGET=/var/log/sdk_dbg/sx_sdk_sniffer_".data
          ++ time_stamp ++ ".pcap\n".data : Content) =
        "[program:syncd]".data ++ '\n' ::
          ("environment=SX_SNIFFER_ENABLE=1,SX_SNIFFER_TARGET=/var/log/sdk_dbg/sx_sdk_sniffer_".data
            ++ (time_stamp ++ (".pcap".data ++ ['\n']))) := by
    simp [List.append_assoc]
  rw [h1, pyLines_append_nl _ (by decide)]
  have h2 :
      ("environment=SX_SNIFFER_ENABLE=1,SX_SNIFFER_TARGET=/var/log/sdk_dbg/sx_sdk_sniffer_".data
          ++ (time_stamp ++ (".pcap".data ++ ['\n'])) : Content) =
        ("environment=SX_SNIFFER_ENABLE=1,SX_SNIFFER_TARGET=/var/log/sdk_dbg/sx_sdk_sniffer_".data
          ++ (time_stamp ++ ".pcap".data)) ++ '\n' :: [] := by
    simp [List.append_assoc]
  have hnl :
      ∀ x ∈ ("environment=SX_SNIFFER_ENABLE=1,SX_SNIFFER_TARGET=/var/log/sdk_dbg/sx_sdk_sniffer_".data
          ++ (time_stamp ++ ".pcap".data) : Content), x ≠ '\n' := by
    intro x hx
    rcases List.mem_append.mp hx with h | h
    · exact
        (by decide :
          ∀ x ∈ "environment=SX_SNIFFER_ENABLE=1,SX_SNIFFER_TARGET=/var/log/sdk_dbg/sx_sdk_sniffer_".data,
            x ≠ '\n') x h
    · rcases List.mem_append.mp h with h' | h'
      · exact hts x h'
      · exact (by decide : ∀ x ∈ ".pcap".data, x ≠ '\n') x h'
  rw [h2, pyLines_append_nl _ hnl]
  simp [List.append_assoc, pyLines]

/-- C4 counterexample: the code's directive-line loop concatenates the
`key=value` pairs with NO separator between consecutive pairs, so for the
mapping `{A: 1, B: 2}` the resulting fragment is
`[program:syncd]\nenvironment=A=1B=2\n`, not the comma-separated line the
claim describes.  (The comma seen in production output comes from the first
pair's value being `"1" + ","`.) -/
theorem C4_counterexample :
    (sdk_sniffer_enable_with [("A".data, "1".data), ("B".data, "2".data)]
        true ⟨[], none⟩).2.2.remote ≠
      "[program:syncd]\n".data ++
        env_directive_spec [("A".data, "1".data), ("B".data, "2".data)] := by
  decide

/-- C4 (amended): against an empty fragment, enable produces exactly one
header line followed by one directive line and a trailing newline, where the
directive line is `environment=` followed by the mapping's `key=value`
pairs concatenated in insertion order with no separator inserted between
pairs; with the actual sniffer mapping (whose first value carries a trailing
comma) the fragment is exactly
`[program:syncd]\nenvironment=SX_SNIFFER_ENABLE=1,SX_SNIFFER_TARGET=/var/log/sdk_dbg/sx_sdk_sniffer_<ts>.pcap\n`,
and with a newline-free timestamp it splits into exactly those two lines. -/
theorem C4_amended_directive_line :
    (∀ (items : List (Content × Content)) (restart_ok : Bool),
      (sdk_sniffer_enable_with items restart_ok ⟨[], none⟩).2.2.remote =
        "[program:syncd]\n".data ++ "environment=".data ++
          (items.map (fun kv => kv.1 ++ "=".data ++ kv.2)).flatten ++
          "\n".data) ∧
    (∀ (time_stamp : Content) (restart_ok : Bool),
      (sdk_sniffer_enable time_stamp restart_ok ⟨[], none⟩).2.2.remote =
        "[program:syncd]\nenvironment=SX_SNIFFER_ENABLE=1,SX_SNIFFER_TARGET=/var/log/sdk_dbg/sx_sdk_sniffer_".data
          ++ time_stamp ++ ".pcap\n".data) ∧
    (∀ (time_stamp : Content) (restart_ok : Bool),
      (∀ c ∈ time_stamp, c ≠ '\n') →
        pyLines
            (sdk_sniffer_enable time_stamp restart_ok ⟨[], none⟩).2.2.remote =
          ["[program:syncd]\n".data,
           "environment=SX_SNIFFER_ENABLE=1,SX_SNIFFER_TARGET=/var/log/sdk_dbg/sx_sdk_sniffer_".data
             ++ time_stamp ++ ".pcap\n".data]) := by
  refine ⟨?_, ?_, ?_⟩
  · intro items restart_ok
    have hrw : (sdk_sniffer_enable_with items restart_ok ⟨[], none⟩).2.2 =
        (⟨env_variable_write []
            ((items.foldl (fun acc kv => acc ++ kv.1 ++ "=".data ++ kv.2)
              "environment=".data) ++ "\n".data), none⟩ : SnifferState) := by
      simp only [sdk_sniffer_enable_with, @set_enable_absent _ _ ⟨[], none⟩ rfl]
      cases restart_ok <;> simp [restart_swss]
    rw [hrw]
    simp only [env_variable_write, if_true, foldl_append_env]
    simp [List.append_assoc]
  · exact enable_from_empty_remote
  · exact enable_from_empty_lines

/-- Witness for C4 at the timestamp `20240101000000`: the fragment is
exactly the header line plus the directive line of the spec's scenario. -/
theorem C4_witness :
    pyLines
        (sdk_sniffer_enable "20240101000000".data true ⟨[], none⟩).2.2.remote =
      ["[program:syncd]\n".data,
       "environment=SX_SNIFFER_ENABLE=1,SX_SNIFFER_TARGET=/var/log/sdk_dbg/sx_sdk_sniffer_".data
         ++ "20240101000000".data ++ ".pcap\n".data] :=
  C4_amended_directive_line.2.2 "20240101000000".data true (by decide)

/-- The env string built by the enable flow always contains the directive
name as a substring (it appears right after `environment=`). -/
theorem sdk_string_contains_name (sdk_sniffer_filename : Content) :
    containsSub ENV_VARIABLE_SX_SNIFFER
      (sdk_sniffer_env_variable_string sdk_sniffer_filename) = true := by
  have h : sdk_sniffer_env_variable_string sdk_sniffer_filename =
      "environment=".data ++ (ENV_VARIABLE_SX_SNIFFER ++
        ("=".data ++ ("1".data ++ (",".data ++
          (ENV_VARIABLE_SX_SNIFFER_TARGET ++
            ("=".data ++ (sdk_sniffer_filename ++ "\n".data))))))) := by
    simp [sdk_sniffer_env_variable_string, sdk_sniffer_env_variable_dict,
      List.append_assoc]
  rw [h]
  exact containsSub_append_of_right _ (containsSub_self_append _ _)

theorem contains_write {pat conf s : Content} (h : containsSub pat s = true) :
    containsSub pat (env_variable_write conf s) = true := by
  rw [env_variable_write]
  by_cases hc : conf = []
  · rw [if_pos hc]; exact containsSub_append_of_right _ h
  · rw [if_neg hc]; exact containsSub_append_of_right _ h

/-- After the enable flow writes its env string, the staging content has a
line containing the directive name, so a re-read finds it. -/
theorem read_after_enable_write (conf sdk_sniffer_filename : Content) :
    env_variable_read
        (env_variable_write conf
          (sdk_sniffer_env_variable_string sdk_sniffer_filename))
        ENV_VARIABLE_SX_SNIFFER ≠ [] := by
  intro h
  have hall := (read_eq_nil_iff _ _).mp h
  have hnlname : ∀ x ∈ ENV_VARIABLE_SX_SNIFFER, x ≠ '\n' := by decide
  have hnename : ENV_VARIABLE_SX_SNIFFER ≠ [] := by decide
  obtain ⟨l, hl, hcl⟩ := exists_line_containsSub hnlname hnename
    (contains_write (sdk_string_contains_name sdk_sniffer_filename))
  rw [hall l hl] at hcl
  exact absurd hcl (by simp)

/-- C8: if the restart fails after a successful publish, the outcome is
`RestartFailure`, the remote fragment keeps exactly the published (mutated)
content — which contains the new directive — the failure is logged, and the
caller's success message is suppressed; no corrective action is taken. -/
theorem C8_restart_failure_keeps_config :
    ∀ (time_stamp : Content) (st : SnifferState),
      env_variable_read st.remote ENV_VARIABLE_SX_SNIFFER = [] →
        (sdk_sniffer_enable time_stamp false st).2.1 =
            ToggleOutcome.RestartFailure ∧
          (sdk_sniffer_enable time_stamp false st).2.2.remote =
            env_variable_write st.remote
              (sdk_sniffer_env_variable_string
                (sniffer_filename_generate SDK_SNIFFER_TARGET_PATH
                  SDK_SNIFFER_FILENAME_PREFIX SDK_SNIFFER_FILENAME_EXT
                  time_stamp)) ∧
          Ev.publish ∈ (sdk_sniffer_enable time_stamp false st).1 ∧
          Ev.logRestartError ∈ (sdk_sniffer_enable time_stamp false st).1 ∧
          Ev.echoSuccess ∉ (sdk_sniffer_enable time_stamp false st).1 ∧
          ∃ l ∈ pyLines (sdk_sniffer_enable time_stamp false st).2.2.remote,
            containsSub ENV_VARIABLE_SX_SNIFFER l = true := by
  intro time_stamp st h
  rw [enable_absent_fail h time_stamp]
  refine ⟨rfl, rfl, ?_, ?_, ?_, ?_⟩
  · simp
  · simp
  · simp
  · have hnlname : ∀ x ∈ ENV_VARIABLE_SX_SNIFFER, x ≠ '\n' := by decide
    have hnename : ENV_VARIABLE_SX_SNIFFER ≠ [] := by decide
    exact exists_line_containsSub hnlname hnename
      (contains_write (sdk_string_contains_name _))

/-- Witness for C8: enable from empty with a failing restart reports
`RestartFailure`, logs the error and suppresses the success message. -/
theorem C8_witness :
    (sdk_sniffer_enable "20240101000000".data false ⟨[], none⟩).2.1 =
        ToggleOutcome.RestartFailure ∧
      Ev.logRestartError ∈
        (sdk_sniffer_enable "20240101000000".data false ⟨[], none⟩).1 ∧
      Ev.echoSuccess ∉
        (sdk_sniffer_enable "20240101000000".data false ⟨[], none⟩).1 :=
  ⟨(C8_restart_failure_keeps_config "20240101000000".data ⟨[], none⟩
      (by decide)).1,
   (C8_restart_failure_keeps_config "20240101000000".data ⟨[], none⟩
      (by decide)).2.2.2.1,
   (C8_restart_failure_keeps_config "20240101000000".data ⟨[], none⟩
      (by decide)).2.2.2.2.1⟩

/-- C1 counterexample: when two distinct lines both contain the directive
name, the first disable deletes only the located (first) line, so a second
disable still finds a match, mutates again and reports `Applied` — not
`AlreadyInDesiredState` — and the remote content changes between the first
and second call. -/
theorem C1_counterexample :
    (sdk_sniffer_disable true
        (sdk_sniffer_disable true
          ⟨"SX_SNIFFER_ENABLE\nSX_SNIFFER_ENABLEb\n".data, none⟩).2.2).2.1 ≠
      ToggleOutcome.AlreadyInDesiredState ∧
    (sdk_sniffer_disable true
        (sdk_sniffer_disable true
          ⟨"SX_SNIFFER_ENABLE\nSX_SNIFFER_ENABLEb\n".data, none⟩).2.2).2.2.remote ≠
      (sdk_sniffer_disable true
        ⟨"SX_SNIFFER_ENABLE\nSX_SNIFFER_ENABLEb\n".data, none⟩).2.2.remote := by
  decide

/-- C1 (amended): enabling twice always yields `AlreadyInDesiredState` on
the second call with the remote content unchanged, for every initial
fragment state; disabling twice does so provided at most one line of the
initial fragment contains the directive name (the data model's invariant).
Without that invariant a second disable can apply again. -/
theorem C1_amended_toggle_idempotence :
    (∀ (ts1 ts2 : Content) (ok1 ok2 : Bool) (st : SnifferState),
      (sdk_sniffer_enable ts2 ok2 (sdk_sniffer_enable ts1 ok1 st).2.2).2.1 =
          ToggleOutcome.AlreadyInDesiredState ∧
        (sdk_sniffer_enable ts2 ok2
            (sdk_sniffer_enable ts1 ok1 st).2.2).2.2.remote =
          (sdk_sniffer_enable ts1 ok1 st).2.2.remote) ∧
    (∀ (ok1 ok2 : Bool) (st : SnifferState),
      ((pyLines st.remote).filter
          (fun l => containsSub ENV_VARIABLE_SX_SNIFFER l)).length ≤ 1 →
        (sdk_sniffer_disable ok2 (sdk_sniffer_disable ok1 st).2.2).2.1 =
            ToggleOutcome.AlreadyInDesiredState ∧
          (sdk_sniffer_disable ok2
              (sdk_sniffer_disable ok1 st).2.2).2.2.remote =
            (sdk_sniffer_disable ok1 st).2.2.remote) := by
  constructor
  · intro ts1 ts2 ok1 ok2 st
    by_cases h : env_variable_read st.remote ENV_VARIABLE_SX_SNIFFER = []
    · have h1 : (sdk_sniffer_enable ts1 ok1 st).2.2 =
          ⟨env_variable_write st.remote
            (sdk_sniffer_env_variable_string
              (sniffer_filename_generate SDK_SNIFFER_TARGET_PATH
                SDK_SNIFFER_FILENAME_PREFIX SDK_SNIFFER_FILENAME_EXT ts1)),
           none⟩ := by
        cases ok1
        · rw [enable_absent_fail h ts1]
        · rw [enable_absent_ok h ts1]
      rw [h1]
      have h2 : env_variable_read
          (SnifferState.mk
            (env_variable_write st.remote
              (sdk_sniffer_env_variable_string
                (sniffer_filename_generate SDK_SNIFFER_TARGET_PATH
                  SDK_SNIFFER_FILENAME_PREFIX SDK_SNIFFER_FILENAME_EXT ts1)))
            none).remote ENV_VARIABLE_SX_SNIFFER ≠ [] :=
        read_after_enable_write st.remote _
      rw [enable_found h2 ts2 ok2]
      exact ⟨rfl, rfl⟩
    · have h1 : (sdk_sniffer_enable ts1 ok1 st).2.2 =
          ⟨st.remote, none⟩ := by
        rw [enable_found h ts1 ok1]
      rw [h1]
      have h2 : env_variable_read
          (SnifferState.mk st.remote none).remote
          ENV_VARIABLE_SX_SNIFFER ≠ [] := h
      rw [enable_found h2 ts2 ok2]
      exact ⟨rfl, rfl⟩
  · intro ok1 ok2 st huniq
    by_cases h : env_variable_read st.remote ENV_VARIABLE_SX_SNIFFER = []
    · have h1 : (sdk_sniffer_disable ok1 st).2.2 = ⟨st.remote, none⟩ := by
        rw [disable_absent h ok1]
      rw [h1]
      have h2 : env_variable_read
          (SnifferState.mk st.remote none).remote
          ENV_VARIABLE_SX_SNIFFER = [] := h
      rw [disable_absent h2 ok2]
      exact ⟨rfl, rfl⟩
    · have hmem := read_mem_contains h
      have h1 : (sdk_sniffer_disable ok1 st).2.2 =
          ⟨env_variable_delete st.remote
            (env_variable_read st.remote ENV_VARIABLE_SX_SNIFFER),
           none⟩ := by
        cases ok1
        · rw [disable_found_fail h]
        · rw [disable_found_ok h]
      rw [h1]
      have hkey : env_variable_read
          (env_variable_delete st.remote
            (env_variable_read st.remote ENV_VARIABLE_SX_SNIFFER))
          ENV_VARIABLE_SX_SNIFFER = [] := by
        apply (read_eq_nil_iff _ _).mpr
        intro l' hl'
        rw [pyLines_delete] at hl'
        obtain ⟨hl'mem, hl'ne⟩ := List.mem_filter.mp hl'
        by_contra hcon
        rw [Bool.not_eq_false] at hcon
        have h2le : 2 ≤ ((pyLines st.remote).filter
            (fun l => containsSub ENV_VARIABLE_SX_SNIFFER l)).length := by
          refine two_mem_le_length (List.mem_filter.mpr ⟨hl'mem, hcon⟩)
            (List.mem_filter.mpr ⟨hmem.1, hmem.2⟩) ?_
          have := of_decide_eq_true hl'ne
          exact this
        omega
      have h2 : env_variable_read
          (SnifferState.mk
            (env_variable_delete st.remote
              (env_variable_read st.remote ENV_VARIABLE_SX_SNIFFER))
            none).remote ENV_VARIABLE_SX_SNIFFER = [] := hkey
      rw [disable_absent h2 ok2]
      exact ⟨rfl, rfl⟩

/-- Witness for C1 at a fragment satisfying the at-most-one-matching-line
invariant: a second disable is a no-op. -/
theorem C1_witness :
    (sdk_sniffer_disable true
        (sdk_sniffer_disable true
          ⟨"[program:syncd]\nenvironment=SX_SNIFFER_ENABLE=1,x\n".data,
           none⟩).2.2).2.1 = ToggleOutcome.AlreadyInDesiredState :=
  (C1_amended_toggle_idempotence.2 true true
    ⟨"[program:syncd]\nenvironment=SX_SNIFFER_ENABLE=1,x\n".data, none⟩
    (by decide)).1

/-- C5: starting from an empty fragment, enabling and then disabling yields
a fragment in which no line contains the directive name — the directive
added by enable is removed by disable (only the header line remains). -/
theorem C5_enable_disable_roundtrip :
    ∀ (time_stamp : Content) (ok1 ok2 : Bool),
      (∀ c ∈ time_stamp, c ≠ '\n') →
      ∀ l ∈ pyLines (sdk_sniffer_disable ok2
          (sdk_sniffer_enable time_stamp ok1 ⟨[], none⟩).2.2).2.2.remote,
        containsSub ENV_VARIABLE_SX_SNIFFER l = false := by
  intro time_stamp ok1 ok2 hts
  have hlines := enable_from_empty_lines time_stamp ok1 hts
  have hhl : containsSub ENV_VARIABLE_SX_SNIFFER "[program:syncd]\n".data =
      false := by decide
  have hel : containsSub ENV_VARIABLE_SX_SNIFFER
      ("environment=SX_SNIFFER_ENABLE=1,SX_SNIFFER_TARGET=/var/log/sdk_dbg/sx_sdk_sniffer_".data
        ++ time_stamp ++ ".pcap\n".data) = true := by
    have he :
        ("environment=SX_SNIFFER_ENABLE=1,SX_SNIFFER_TARGET=/var/log/sdk_dbg/sx_sdk_sniffer_".data
            ++ time_stamp ++ ".pcap\n".data : Content) =
          "environment=".data ++ (ENV_VARIABLE_SX_SNIFFER ++
            ("=1,SX_SNIFFER_TARGET=/var/log/sdk_dbg/sx_sdk_sniffer_".data ++
              (time_stamp ++ ".pcap\n".data))) := by
      rfl
    rw [he]
    exact containsSub_append_of_right _ (containsSub_self_append _ _)
  have h82 :
      ("environment=SX_SNIFFER_ENABLE=1,SX_SNIFFER_TARGET=/var/log/sdk_dbg/sx_sdk_sniffer_".data
        : Content).length = 82 := by decide
  have h16 : ("[program:syncd]\n".data : Content).length = 16 := by decide
  have h6 : (".pcap\n".data : Content).length = 6 := by decide
  have hne_lines : ("[program:syncd]\n".data : Content) ≠
      "environment=SX_SNIFFER_ENABLE=1,SX_SNIFFER_TARGET=/var/log/sdk_dbg/sx_sdk_sniffer_".data
        ++ time_stamp ++ ".pcap\n".data := by
    intro heq
    have hlen := congrArg List.length heq
    rw [List.length_append, List.length_append, h82, h6, h16] at hlen
    omega
  have hread : env_variable_read
      (sdk_sniffer_enable time_stamp ok1 ⟨[], none⟩).2.2.remote
      ENV_VARIABLE_SX_SNIFFER =
      "environment=SX_SNIFFER_ENABLE=1,SX_SNIFFER_TARGET=/var/log/sdk_dbg/sx_sdk_sniffer_".data
        ++ time_stamp ++ ".pcap\n".data := by
    rw [env_variable_read, hlines,
      List.find?_cons_of_neg _ (by simp [hhl]),
      List.find?_cons_of_pos _ hel]
    rfl
  have hfound : env_variable_read
      (sdk_sniffer_enable time_stamp ok1 ⟨[], none⟩).2.2.remote
      ENV_VARIABLE_SX_SNIFFER ≠ [] := by
    rw [hread]
    intro h0
    have hlen := congrArg List.length h0
    rw [List.length_append, List.length_append, h82, h6] at hlen
    simp at hlen
  have hdel : (sdk_sniffer_disable ok2
      (sdk_sniffer_enable time_stamp ok1 ⟨[], none⟩).2.2).2.2.remote =
      env_variable_delete
        (sdk_sniffer_enable time_stamp ok1 ⟨[], none⟩).2.2.remote
        (env_variable_read
          (sdk_sniffer_enable time_stamp ok1 ⟨[], none⟩).2.2.remote
          ENV_VARIABLE_SX_SNIFFER) := by
    cases ok2
    · rw [disable_found_fail hfound]
    · rw [disable_found_ok hfound]
  rw [hdel, hread]
  intro l hl
  have d1 : decide (("[program:syncd]\n".data : Content) ≠
      "environment=SX_SNIFFER_ENABLE=1,SX_SNIFFER_TARGET=/var/log/sdk_dbg/sx_sdk_sniffer_".data
        ++ time_stamp ++ ".pcap\n".data) = true := decide_eq_true hne_lines
  have d2 : decide
      (("environment=SX_SNIFFER_ENABLE=1,SX_SNIFFER_TARGET=/var/log/sdk_dbg/sx_sdk_sniffer_".data
          ++ time_stamp ++ ".pcap\n".data : Content) ≠
        "environment=SX_SNIFFER_ENABLE=1,SX_SNIFFER_TARGET=/var/log/sdk_dbg/sx_sdk_sniffer_".data
          ++ time_stamp ++ ".pcap\n".data) = false := by simp
  rw [pyLines_delete, hlines] at hl
  simp only [List.filter_cons, List.filter_nil, d1, d2] at hl
  simp at hl
  subst hl
  exact hhl

/-- Witness for C5 at the timestamp `20240101000000`: after enable then
disable from an empty fragment, every remaining line fails to contain the
directive name. -/
theorem C5_witness :
    ((pyLines (sdk_sniffer_disable true
        (sdk_sniffer_enable "20240101000000".data true
          ⟨[], none⟩).2.2).2.2.remote).all
      (fun l => !containsSub ENV_VARIABLE_SX_SNIFFER l)) = true := by
  have h := C5_enable_disable_roundtrip "20240101000000".data true true
    (by decide)
  rw [List.all_eq_true]
  intro l hl
  rw [Bool.not_eq_true']
  exact h l hl

end MlnxSniffer
